import Mathlib

/-!
# go_serverless: a CRUD handler over a key-value table

Shallow embedding of `pkg/user/user.go` (the store adapter),
`pkg/handlers/handlers.go` (the request dispatcher's handlers) and
`pkg/handlers/api_response.go` (the response envelope).

Conventions of the embedding.

* A Go `error` is an `Option String`: `none` is `nil`, `some m` is
  `errors.New(m)`. A Go pointer result is an `Option`.
* A Go map is an association list with pairwise distinct keys; a `range`
  loop over it visits the entries in an order chosen by a `RangeOrder`.
* The store client is a record of transition functions on a store state;
  every call made through the client is appended to a request log, so that
  "no request is issued" is "the world is unchanged".
* Text-level JSON parsing, the e-mail validator and the attribute-value
  codec are collaborators of the code and are parameters of it.
-/

/-! ## Go runtime -/

/-- Go `len(s)` on a string: the number of bytes of `s`. -/
def len (s : String) : Nat := s.utf8ByteSize

/-- Go `strconv.Itoa`: the decimal text of an integer. -/
def Itoa (v : Int) : String := toString v

/-- The dynamic values an `interface{}` can hold, by dynamic type: one
constructor per predeclared type a caller or the JSON decoder can store, one
for a value of a defined type over its underlying value (`json.Number` is
`named "json.Number"` over a `string`), and one for the values of every other
type. An integer is carried as the number it denotes (for `int`, a 64-bit
signed integer) and a float as the number it denotes; the program does no
arithmetic on either. -/
inductive GoValue where
  | string (v : String)
  | int (v : Int)
  | bool (v : Bool)
  | int8 (v : Int)
  | int16 (v : Int)
  | int32 (v : Int)
  | int64 (v : Int)
  | uint (v : Nat)
  | uint8 (v : Nat)
  | uint16 (v : Nat)
  | uint32 (v : Nat)
  | uint64 (v : Nat)
  | uintptr (v : Nat)
  | float32 (v : Rat)
  | float64 (v : Rat)
  | nil
  | slice (v : List GoValue)
  | map (v : List (String × GoValue))
  | named (typeName : String) (underlying : GoValue)
  | other (typeName : String)

/-- The order in which a `range` loop visits the entries of a map: some
permutation of its entries. -/
structure RangeOrder (α : Type) where
  visit : List (String × α) → List (String × α)
  perm : ∀ m, (visit m).Perm m

/-- The range order that visits the entries as they are listed. -/
def RangeOrder.listed (α : Type) : RangeOrder α where
  visit := fun m => m
  perm := fun m => List.Perm.refl m

/-- The range order that visits the entries in reverse. -/
def RangeOrder.reversed (α : Type) : RangeOrder α where
  visit := fun m => m.reverse
  perm := fun m => List.reverse_perm m

/-- Go `m[k]` on a `map[string]string`: the zero value when `k` is absent. -/
def mapIndex (m : List (String × String)) (k : String) : String :=
  (m.lookup k).getD ""

/-! ## The DynamoDB client -/

namespace dynamodb

/-- The `dynamodb.AttributeValue` union, one constructor per member. -/
inductive AttributeValue where
  | B (v : List Nat)
  | BOOL (v : Bool)
  | BS (v : List (List Nat))
  | L (v : List AttributeValue)
  | M (v : List (String × AttributeValue))
  | N (v : String)
  | NS (v : List String)
  | NULL (v : Bool)
  | S (v : String)
  | SS (v : List String)

/-- A `map[string]*dynamodb.AttributeValue`. -/
abbrev AttrMap := List (String × AttributeValue)

/-- Go `m[k] = v`: replaces the entry of `k` or adds one. -/
def AttrMap.set : AttrMap → String → AttributeValue → AttrMap
  | [], k, v => [(k, v)]
  | (k', v') :: rest, k, v =>
    if k' = k then (k, v) :: rest else (k', v') :: AttrMap.set rest k v

structure GetItemInput where
  TableName : String
  Key : AttrMap

structure GetItemOutput where
  Item : Option AttrMap

structure ScanInput where
  TableName : String

structure ScanOutput where
  Items : List AttrMap

structure PutItemInput where
  TableName : String
  Item : AttrMap

structure UpdateItemInput where
  TableName : String
  Key : AttrMap
  UpdateExpression : String
  ExpressionAttributeValues : AttrMap

structure DeleteItemInput where
  TableName : String
  Key : AttrMap

/-- A request sent to the store. -/
inductive Request where
  | GetItem (input : GetItemInput)
  | Scan (input : ScanInput)
  | PutItem (input : PutItemInput)
  | UpdateItem (input : UpdateItemInput)
  | DeleteItem (input : DeleteItemInput)

/-- The store behind the client: for each operation, its outcome (an error or
an output) and the next store state. -/
structure Backend (σ : Type) where
  getItem : GetItemInput → σ → Except String GetItemOutput × σ
  scan : ScanInput → σ → Except String ScanOutput × σ
  putItem : PutItemInput → σ → Except String Unit × σ
  updateItem : UpdateItemInput → σ → Except String Unit × σ
  deleteItem : DeleteItemInput → σ → Except String Unit × σ

/-- The store state together with the log of the requests issued so far. -/
structure World (σ : Type) where
  store : σ
  log : List Request

/-- The client `*dynamodb.DynamoDB`. -/
abbrev DynamoDB (σ : Type) := Backend σ

variable {σ : Type}

def DynamoDB.GetItem (c : DynamoDB σ) (input : GetItemInput) (w : World σ) :
    Except String GetItemOutput × World σ :=
  ((c.getItem input w.store).1,
    { store := (c.getItem input w.store).2, log := w.log ++ [Request.GetItem input] })

def DynamoDB.Scan (c : DynamoDB σ) (input : ScanInput) (w : World σ) :
    Except String ScanOutput × World σ :=
  ((c.scan input w.store).1,
    { store := (c.scan input w.store).2, log := w.log ++ [Request.Scan input] })

def DynamoDB.PutItem (c : DynamoDB σ) (input : PutItemInput) (w : World σ) :
    Except String Unit × World σ :=
  ((c.putItem input w.store).1,
    { store := (c.putItem input w.store).2, log := w.log ++ [Request.PutItem input] })

def DynamoDB.UpdateItem (c : DynamoDB σ) (input : UpdateItemInput) (w : World σ) :
    Except String Unit × World σ :=
  ((c.updateItem input w.store).1,
    { store := (c.updateItem input w.store).2, log := w.log ++ [Request.UpdateItem input] })

def DynamoDB.DeleteItem (c : DynamoDB σ) (input : DeleteItemInput) (w : World σ) :
    Except String Unit × World σ :=
  ((c.deleteItem input w.store).1,
    { store := (c.deleteItem input w.store).2, log := w.log ++ [Request.DeleteItem input] })

end dynamodb

/-! ## Package `user`: the store adapter -/

namespace user

open dynamodb

def ErrorFailedToFetchRecord : String := "failed to fetch record"
def ErrorFailedToUnmarshalRecord : String := "failed to unmarshal record"
def ErrorFailedToFetchRecords : String := "failed to fetch records"
def ErrorFailedToUnmarshalRecords : String := "failed to unmarshal records"
def ErrorCouldNotMarshalItem : String := "could not marshal item"
def ErrorCouldNotPutItem : String := "could not put item"
def ErrorFailedToDeleteItem : String := "failed to delete item"
def ErrorFailedToUpdateItem : String := "failed to update item"

structure User where
  Email : String
  FirstName : String
  LastName : String
deriving DecidableEq

/-- The functions of package `dynamodbattribute` the adapter calls, at the
types it calls them. -/
structure Codec where
  MarshalMap : User → Except String AttrMap
  UnmarshalMap : AttrMap → Except String User
  UnmarshalListOfMaps : List AttrMap → Except String (List User)

variable {σ : Type}

def FetchUser (av : Codec) (email tableName : String) (dynaClient : DynamoDB σ)
    (w : World σ) : (Option User × Option String) × World σ :=
  let input : GetItemInput :=
    { TableName := tableName, Key := [("email", AttributeValue.S email)] }
  match dynaClient.GetItem input w with
  | (Except.error _, w1) => ((none, some ErrorFailedToFetchRecord), w1)
  | (Except.ok result, w1) =>
    match result.Item with
    | none => ((none, none), w1)
    | some item =>
      match av.UnmarshalMap item with
      | Except.error _ => ((none, some ErrorFailedToUnmarshalRecord), w1)
      | Except.ok u => ((some u, none), w1)

def FetchUsers (av : Codec) (tableName : String) (dynaClient : DynamoDB σ)
    (w : World σ) : (Option (List User) × Option String) × World σ :=
  let input : ScanInput := { TableName := tableName }
  match dynaClient.Scan input w with
  | (Except.error _, w1) => ((none, some ErrorFailedToFetchRecords), w1)
  | (Except.ok result, w1) =>
    match av.UnmarshalListOfMaps result.Items with
    | Except.error _ => ((none, some ErrorFailedToUnmarshalRecords), w1)
    | Except.ok items => ((some items, none), w1)

def CreateUser (av : Codec) (user : User) (tableName : String) (dynaClient : DynamoDB σ)
    (w : World σ) : (Option User × Option String) × World σ :=
  match av.MarshalMap user with
  | Except.error _ => ((none, some ErrorCouldNotMarshalItem), w)
  | Except.ok item =>
    let input : PutItemInput := { TableName := tableName, Item := item }
    match dynaClient.PutItem input w with
    | (Except.error _, w1) => ((none, some ErrorCouldNotPutItem), w1)
    | (Except.ok _, w1) => ((some user, none), w1)

/-- The body of the `for key, value := range updates` loop of `UpdateUser`,
run over the entries in the order they are visited. The accumulator is
`updateExpressions` and `expressionAttributeValues`; an error is the early
`return` of the `default` arm. -/
def updateLoop : List (String × GoValue) → List String → AttrMap →
    Except String (List String × AttrMap)
  | [], updateExpressions, expressionAttributeValues =>
    Except.ok (updateExpressions, expressionAttributeValues)
  | (key, value) :: rest, updateExpressions, expressionAttributeValues =>
    let updateExpressions := updateExpressions ++ [key ++ " = :" ++ key]
    match value with
    | GoValue.string v =>
      updateLoop rest updateExpressions
        (expressionAttributeValues.set (":" ++ key) (AttributeValue.S v))
    | GoValue.int v =>
      updateLoop rest updateExpressions
        (expressionAttributeValues.set (":" ++ key) (AttributeValue.N (Itoa v)))
    | GoValue.bool v =>
      updateLoop rest updateExpressions
        (expressionAttributeValues.set (":" ++ key) (AttributeValue.BOOL v))
    | _ => Except.error "unsupported attribute value type"

def UpdateUser (order : RangeOrder GoValue) (email : String)
    (updates : List (String × GoValue)) (tableName : String) (dynaClient : DynamoDB σ)
    (w : World σ) : Option String × World σ :=
  match updateLoop (order.visit updates) [] [] with
  | Except.error e => (some e, w)
  | Except.ok (updateExpressions, expressionAttributeValues) =>
    let input : UpdateItemInput :=
      { TableName := tableName
        Key := [("email", AttributeValue.S email)]
        UpdateExpression := "set " ++ ", ".intercalate updateExpressions
        ExpressionAttributeValues := expressionAttributeValues }
    match dynaClient.UpdateItem input w with
    | (Except.error _, w1) => (some ErrorFailedToUpdateItem, w1)
    | (Except.ok _, w1) => (none, w1)

def DeleteUser (email tableName : String) (dynaClient : DynamoDB σ) (w : World σ) :
    Option String × World σ :=
  let input : DeleteItemInput :=
    { TableName := tableName, Key := [("email", AttributeValue.S email)] }
  match dynaClient.DeleteItem input w with
  | (Except.error _, w1) => (some ErrorFailedToDeleteItem, w1)
  | (Except.ok _, w1) => (none, w1)

end user

/-! ## Package `handlers`: the response envelope and the handlers -/

namespace http

def StatusOK : Int := 200
def StatusCreated : Int := 201
def StatusBadRequest : Int := 400
def StatusMethodNotAllowed : Int := 405
def StatusBadGateway : Int := 502

end http

namespace events

structure APIGatewayProxyRequest where
  HTTPMethod : String
  QueryStringParameters : List (String × String)
  Body : String

structure APIGatewayProxyResponse where
  StatusCode : Int
  Headers : List (String × String)
  Body : String
deriving DecidableEq

end events

namespace handlers

open dynamodb events

def ErrorFailedToFetchRecord : String := "failed to fetch record"
def ErrorFailedToUnmarshalRecord : String := "failed to unmarshal record"
def ErrorFailedToFetchRecords : String := "failed to fetch records"
def ErrorFailedToUnmarshalRecords : String := "failed to unmarshal records"
def ErrorCouldNotMarshalItem : String := "could not marshal item"
def ErrorCouldNotPutItem : String := "could not put item"
def ErrorFailedToDeleteItem : String := "failed to delete item"
def ErrorFailedToUpdateItem : String := "failed to update item"
def ErrorMethodNotAllowed : String := "method not allowed"

structure ErrorBody where
  ErrorMsg : Option String

/-- The values the handlers pass to `apiResponse` as `body interface{}`:
an `ErrorBody`, a `*user.User`, a `[]user.User` or a `string`. -/
inductive Body where
  | errorBody (b : ErrorBody)
  | userPtr (u : Option user.User)
  | users (l : Option (List user.User))
  | string (s : String)

/-- How `encoding/json` writes one character of a string: the quote and the
backslash are escaped, line feed, carriage return and tab have short escapes,
the other control characters and `<`, `>`, `&` are written `\u00XX`, and
U+2028, U+2029 are written `\u202X`. (Later Go releases also shorten the
escapes of backspace and form feed; no message of the program holds one.) -/
def escapeRune (c : Char) : List Char :=
  if c = '\\' ∨ c = '"' then ['\\', c]
  else if c = '\n' then ['\\', 'n']
  else if c = '\r' then ['\\', 'r']
  else if c = '\t' then ['\\', 't']
  else if c.toNat < 32 ∨ c = '<' ∨ c = '>' ∨ c = '&' then
    ['\\', 'u', '0', '0', Nat.digitChar (c.toNat / 16), Nat.digitChar (c.toNat % 16)]
  else if c.toNat = 0x2028 ∨ c.toNat = 0x2029 then
    ['\\', 'u', '2', '0', '2', Nat.digitChar (c.toNat % 16)]
  else [c]

/-- A Go string as a JSON string. -/
def jsonString (s : String) : String :=
  String.mk ('"' :: (s.data.flatMap escapeRune) ++ ['"'])

/-- A `user.User` as a JSON object, its fields under their `json` tags. -/
def jsonUser (u : user.User) : String :=
  "\x7b\"email\":" ++ jsonString u.Email ++ ",\"firstName\":" ++ jsonString u.FirstName
    ++ ",\"lastName\":" ++ jsonString u.LastName ++ "\x7d"

/-- The text `json.Marshal(body)` produces for the bodies the handlers send.
The `error` member of an `ErrorBody` is `omitempty` on a pointer. -/
def jsonMarshal : Body → String
  | Body.errorBody b =>
    match b.ErrorMsg with
    | none => "\x7b\x7d"
    | some m => "\x7b\"error\":" ++ jsonString m ++ "\x7d"
  | Body.userPtr none => "null"
  | Body.userPtr (some u) => jsonUser u
  | Body.users none => "null"
  | Body.users (some l) => "[" ++ ",".intercalate (l.map jsonUser) ++ "]"
  | Body.string s => jsonString s

def apiResponse (status : Int) (body : Body) :
    Option APIGatewayProxyResponse × Option String :=
  let resp : APIGatewayProxyResponse :=
    { StatusCode := status
      Headers := [("Content-Type", "application/json")]
      Body := jsonMarshal body }
  (some resp, none)

/-- The collaborators of the handlers besides the store client.
`jsonUnmarshalUser body` is `json.Unmarshal([]byte(body), &curUser)` for a
`user.User`, and `jsonUnmarshalMap body` the same call for a
`map[string]interface{}`: `none` when the call returns an error, the decoded
value otherwise. `IsEmailValid` is `validators.IsEmailValid`. -/
structure Env where
  av : user.Codec
  order : RangeOrder GoValue
  jsonUnmarshalUser : String → Option user.User
  jsonUnmarshalMap : String → Option (List (String × GoValue))
  IsEmailValid : String → Bool

variable {σ : Type}

def GetUser (E : Env) (req : APIGatewayProxyRequest) (tableName : String)
    (dynaClient : DynamoDB σ) (w : World σ) :
    (Option APIGatewayProxyResponse × Option String) × World σ :=
  let email := mapIndex req.QueryStringParameters "email"
  if len email > 0 then
    match user.FetchUser E.av email tableName dynaClient w with
    | ((_, some err), w1) =>
      (apiResponse http.StatusBadGateway (Body.errorBody { ErrorMsg := some err }), w1)
    | ((result, none), w1) => (apiResponse http.StatusOK (Body.userPtr result), w1)
  else
    match user.FetchUsers E.av tableName dynaClient w with
    | ((_, some err), w1) =>
      (apiResponse http.StatusBadGateway (Body.errorBody { ErrorMsg := some err }), w1)
    | ((result, none), w1) => (apiResponse http.StatusOK (Body.users result), w1)

def CreateUser (E : Env) (req : APIGatewayProxyRequest) (tableName : String)
    (dynaClient : DynamoDB σ) (w : World σ) :
    (Option APIGatewayProxyResponse × Option String) × World σ :=
  match E.jsonUnmarshalUser req.Body with
  | none =>
    (apiResponse http.StatusBadRequest
      (Body.errorBody { ErrorMsg := some ErrorCouldNotMarshalItem }), w)
  | some curUser =>
    let valid := E.IsEmailValid curUser.Email
    if !valid then
      (apiResponse http.StatusBadRequest (Body.errorBody { ErrorMsg := some "invalid email" }), w)
    else
      match user.CreateUser E.av curUser tableName dynaClient w with
      | ((_, some err), w1) =>
        (apiResponse http.StatusBadGateway (Body.errorBody { ErrorMsg := some err }), w1)
      | ((result, none), w1) => (apiResponse http.StatusCreated (Body.userPtr result), w1)

def UpdateUser (E : Env) (req : APIGatewayProxyRequest) (tableName : String)
    (dynaClient : DynamoDB σ) (w : World σ) :
    (Option APIGatewayProxyResponse × Option String) × World σ :=
  let email := mapIndex req.QueryStringParameters "email"
  if len email = 0 then
    (apiResponse http.StatusBadRequest (Body.errorBody { ErrorMsg := some "missing email" }), w)
  else
    match E.jsonUnmarshalMap req.Body with
    | none =>
      (apiResponse http.StatusBadRequest
        (Body.errorBody { ErrorMsg := some "invalid request body" }), w)
    | some updates =>
      match user.UpdateUser E.order email updates tableName dynaClient w with
      | (some err, w1) =>
        (apiResponse http.StatusBadGateway (Body.errorBody { ErrorMsg := some err }), w1)
      | (none, w1) => (apiResponse http.StatusOK (Body.string "successfully updated user"), w1)

def DeleteUser (req : APIGatewayProxyRequest) (tableName : String)
    (dynaClient : DynamoDB σ) (w : World σ) :
    (Option APIGatewayProxyResponse × Option String) × World σ :=
  let email := mapIndex req.QueryStringParameters "email"
  if len email = 0 then
    (apiResponse http.StatusBadRequest (Body.errorBody { ErrorMsg := some "missing email" }), w)
  else
    match user.DeleteUser email tableName dynaClient w with
    | (some _, w1) =>
      (apiResponse http.StatusBadGateway
        (Body.errorBody { ErrorMsg := some "failed to delete user" }), w1)
    | (none, w1) => (apiResponse http.StatusOK (Body.string "successfully deleted user"), w1)

def UnhandledMethod : Option APIGatewayProxyResponse × Option String :=
  apiResponse http.StatusMethodNotAllowed (Body.string ErrorMethodNotAllowed)

end handlers

/-! ## Package `dynamodbattribute` at type `user.User`

`MarshalMap` and `UnmarshalMap` of the SDK at the one struct the adapter
uses them with. The encoder writes one attribute per field under its `json`
tag; with `NullEmptyString` an empty string is written as `NULL`. The decoder
visits the attributes of the item in map order, finds the field of each by
exact name or else by `strings.EqualFold`, and stores the value in it. -/

namespace dynamodbattribute

open dynamodb user

structure Options where
  NullEmptyString : Bool
  EqualFold : String → String → Bool
  order : RangeOrder AttributeValue

/-- The encoder on a `string` field. -/
def encodeString (opts : Options) (s : String) : AttributeValue :=
  if s = "" ∧ opts.NullEmptyString = true then AttributeValue.NULL true else AttributeValue.S s

def MarshalMap (opts : Options) (u : User) : Except String AttrMap :=
  Except.ok
    [ ("email", encodeString opts u.Email)
    , ("firstName", encodeString opts u.FirstName)
    , ("lastName", encodeString opts u.LastName) ]

/-- The fields of `user.User`. -/
inductive Field where
  | Email
  | FirstName
  | LastName
deriving DecidableEq

/-- The name a field is stored under: its `json` tag. -/
def Field.Name : Field → String
  | Field.Email => "email"
  | Field.FirstName => "firstName"
  | Field.LastName => "lastName"

def Field.get (u : User) : Field → String
  | Field.Email => u.Email
  | Field.FirstName => u.FirstName
  | Field.LastName => u.LastName

def Field.set (u : User) (s : String) : Field → User
  | Field.Email => { u with Email := s }
  | Field.FirstName => { u with FirstName := s }
  | Field.LastName => { u with LastName := s }

/-- The loop of `fieldByName`: an exact match returns at once, the first
case-folded match is kept as the fallback. -/
def fieldByNameLoop (opts : Options) (name : String) : List Field → Option Field → Option Field
  | [], fold => fold
  | f :: fs, fold =>
    if f.Name = name then some f
    else if fold.isNone ∧ opts.EqualFold f.Name name = true then
      fieldByNameLoop opts name fs (some f)
    else fieldByNameLoop opts name fs fold

def fieldByName (opts : Options) (name : String) : Option Field :=
  fieldByNameLoop opts name [Field.Email, Field.FirstName, Field.LastName] none

/-- The decoder on a `string` field holding `cur`: `NULL` stores the zero
value, `S` and `N` store their text, an empty collection stores nothing, and
every other attribute is a type error. -/
def decodeString (cur : String) : AttributeValue → Except String String
  | AttributeValue.NULL _ => Except.ok ""
  | AttributeValue.S v => Except.ok v
  | AttributeValue.N v => Except.ok v
  | AttributeValue.BOOL _ => Except.error "cannot unmarshal bool into Go value of type string"
  | AttributeValue.B v =>
    if v.isEmpty then Except.ok cur
    else Except.error "cannot unmarshal binary into Go value of type string"
  | AttributeValue.BS v =>
    if v.isEmpty then Except.ok cur
    else Except.error "cannot unmarshal binary set into Go value of type string"
  | AttributeValue.L v =>
    if v.isEmpty then Except.ok cur
    else Except.error "cannot unmarshal list into Go value of type string"
  | AttributeValue.M v =>
    if v.isEmpty then Except.ok cur
    else Except.error "cannot unmarshal map into Go value of type string"
  | AttributeValue.NS v =>
    if v.isEmpty then Except.ok cur
    else Except.error "cannot unmarshal number set into Go value of type string"
  | AttributeValue.SS v =>
    if v.isEmpty then Except.ok cur
    else Except.error "cannot unmarshal string set into Go value of type string"

/-- One round of the decoder's loop over the attributes of an item. -/
def decodeEntry (opts : Options) (acc : Except String User) (e : String × AttributeValue) :
    Except String User :=
  match acc with
  | Except.error m => Except.error m
  | Except.ok u =>
    match fieldByName opts e.1 with
    | none => Except.ok u
    | some f =>
      match decodeString (f.get u) e.2 with
      | Except.error m => Except.error m
      | Except.ok s => Except.ok (f.set u s)

def UnmarshalMap (opts : Options) (m : AttrMap) : Except String User :=
  (opts.order.visit m).foldl (decodeEntry opts)
    (Except.ok { Email := "", FirstName := "", LastName := "" })

def UnmarshalListOfMaps (opts : Options) : List AttrMap → Except String (List User)
  | [] => Except.ok []
  | m :: ms =>
    match UnmarshalMap opts m with
    | Except.error e => Except.error e
    | Except.ok u =>
      match UnmarshalListOfMaps opts ms with
      | Except.error e => Except.error e
      | Except.ok us => Except.ok (u :: us)

def codec (opts : Options) : Codec where
  MarshalMap := MarshalMap opts
  UnmarshalMap := UnmarshalMap opts
  UnmarshalListOfMaps := UnmarshalListOfMaps opts

end dynamodbattribute

/-! ## A table keyed by `email` -/

namespace table

open dynamodb

/-- The items of the table under their partition key. -/
abbrev Table := List (String × AttrMap)

/-- The partition key of an item or of a key map: its string attribute
`email`. -/
def partitionKey (m : AttrMap) : Option String :=
  match m.lookup "email" with
  | some (AttributeValue.S k) => some k
  | _ => none

/-- A store whose `GetItem` is a lookup by partition key and whose `PutItem`
overwrites the item under the partition key; a request without a string
partition key is refused. The other operations are those of `other`. -/
def mapStore (other : Backend Table) : Backend Table where
  getItem := fun input t =>
    match partitionKey input.Key with
    | none => (Except.error "ValidationException", t)
    | some k => (Except.ok { Item := t.lookup k }, t)
  putItem := fun input t =>
    match partitionKey input.Item with
    | none => (Except.error "ValidationException", t)
    | some k => (Except.ok (), (k, input.Item) :: t.filter (fun e => e.1 != k))
  scan := other.scan
  updateItem := other.updateItem
  deleteItem := other.deleteItem

end table

/-! ## Sample collaborators -/

namespace sample

open dynamodb

/-- A store in which every operation fails and nothing changes. -/
def failing : Backend Unit where
  getItem := fun _ s => (Except.error "unavailable", s)
  scan := fun _ s => (Except.error "unavailable", s)
  putItem := fun _ s => (Except.error "unavailable", s)
  updateItem := fun _ s => (Except.error "unavailable", s)
  deleteItem := fun _ s => (Except.error "unavailable", s)

/-- A store in which every operation succeeds, holding nothing. -/
def empty : Backend Unit where
  getItem := fun _ s => (Except.ok { Item := none }, s)
  scan := fun _ s => (Except.ok { Items := [] }, s)
  putItem := fun _ s => (Except.ok (), s)
  updateItem := fun _ s => (Except.ok (), s)
  deleteItem := fun _ s => (Except.ok (), s)

def world : World Unit := { store := (), log := [] }

/-- The operations of a table store that `table.mapStore` leaves open: the
scan lists the items, updates are refused and deletes change nothing. -/
def others : Backend table.Table where
  getItem := fun _ t => (Except.error "unused", t)
  putItem := fun _ t => (Except.error "unused", t)
  scan := fun _ t => (Except.ok { Items := t.map Prod.snd }, t)
  updateItem := fun _ t => (Except.error "unsupported", t)
  deleteItem := fun _ t => (Except.ok (), t)

def options : dynamodbattribute.Options where
  NullEmptyString := true
  EqualFold := fun a b => a.toLower == b.toLower
  order := RangeOrder.reversed AttributeValue

/-- Collaborators that decode exactly two request bodies: the record
`{"email":"not-an-email","firstName":"A","lastName":"B"}` and the patch
`{"age":30}`, whose number `encoding/json` stores as a `float64`. The
validator accepts the addresses that contain an `@`. -/
def env : handlers.Env where
  av := dynamodbattribute.codec options
  order := RangeOrder.listed GoValue
  jsonUnmarshalUser := fun body =>
    if body = "\x7b\"email\":\"not-an-email\",\"firstName\":\"A\",\"lastName\":\"B\"\x7d" then
      some { Email := "not-an-email", FirstName := "A", LastName := "B" }
    else none
  jsonUnmarshalMap := fun body =>
    if body = "\x7b\"age\":30\x7d" then some [("age", GoValue.float64 30)] else none
  IsEmailValid := fun s => s.data.contains '@'

end sample

/-! ## Specification vocabulary -/

namespace spec

open dynamodb

/-- The values the type switch of `user.UpdateUser` has an arm for: those of
dynamic type `string`, `int` or `bool`. -/
def supported : GoValue → Bool
  | GoValue.string _ => true
  | GoValue.int _ => true
  | GoValue.bool _ => true
  | _ => false

/-- The clause of the update expression for a patch key. -/
def clause (k : String) : String := k ++ " = :" ++ k

/-- The placeholder of a patch key in the expression attribute values. -/
def placeholder (k : String) : String := ":" ++ k

/-- The attribute a supported patch value is sent as: `S` of a string, `N` of
the decimal text of an integer, `BOOL` of a boolean. The values of the other
types are never sent; they are given `NULL` here. -/
def attributeOf : GoValue → AttributeValue
  | GoValue.string v => AttributeValue.S v
  | GoValue.int v => AttributeValue.N (Itoa v)
  | GoValue.bool v => AttributeValue.BOOL v
  | _ => AttributeValue.NULL true

/-- The kinds of value the specification calls supported, read by kind
rather than by exact type: a string, an integer of any width and
signedness, a boolean, or a value of a defined type over one of these. -/
def stringIntegerOrBoolean : GoValue → Bool
  | GoValue.string _ => true
  | GoValue.bool _ => true
  | GoValue.int _ => true
  | GoValue.int8 _ => true
  | GoValue.int16 _ => true
  | GoValue.int32 _ => true
  | GoValue.int64 _ => true
  | GoValue.uint _ => true
  | GoValue.uint8 _ => true
  | GoValue.uint16 _ => true
  | GoValue.uint32 _ => true
  | GoValue.uint64 _ => true
  | GoValue.uintptr _ => true
  | GoValue.named _ v => stringIntegerOrBoolean v
  | _ => false

/-- The decimal text of a natural number: `0` for zero, and otherwise its
base-10 digits, most significant first and without a leading zero, each
written as the character `0` + digit. -/
def decimalNat (n : Nat) : String :=
  if n = 0 then "0"
  else String.mk ((Nat.digits 10 n).reverse.map (fun d => Char.ofNat (48 + d)))

/-- The decimal text of an integer: that of its absolute value, after a
minus sign when it is negative. -/
def decimal (v : Int) : String :=
  if v < 0 then "-" ++ decimalNat v.natAbs else decimalNat v.natAbs

/-- The headers of every response. -/
def jsonHeaders : List (String × String) := [("Content-Type", "application/json")]

/-- The response with the given status whose body is the JSON object with
the single member `error`, holding the message `m` (a message without
characters that JSON escapes). -/
def errorResponse (status : Int) (m : String) : events.APIGatewayProxyResponse :=
  { StatusCode := status
    Headers := jsonHeaders
    Body := "\x7b\"error\":\"" ++ m ++ "\"\x7d" }

/-- A handler result is well formed: a response with a `nil` error, the JSON
content type as its only header and one of the five status codes. -/
def wellFormed : Option events.APIGatewayProxyResponse × Option String → Bool
  | (some resp, none) =>
    decide (resp.Headers = jsonHeaders) &&
      decide (resp.StatusCode ∈ [(200 : Int), 201, 400, 405, 502])
  | _ => false

end spec

/-! ## Lemmas -/

open dynamodb

theorem len_eq_zero_iff (s : String) : len s = 0 ↔ s = "" := by
  rcases s with ⟨cs⟩
  cases cs with
  | nil => simp [len, String.utf8ByteSize, String.utf8ByteSize.go]
  | cons c cs =>
    have hc := Char.utf8Size_pos c
    simp only [len, String.utf8ByteSize, String.utf8ByteSize.go]
    constructor
    · intro h; omega
    · intro h; exact absurd (congrArg String.data h) (by simp)

theorem placeholder_injective (a b : String) (h : spec.placeholder a = spec.placeholder b) :
    a = b := by
  have h1 := congrArg String.data h
  simp only [spec.placeholder, String.data_append] at h1
  exact String.ext (List.append_cancel_left h1)

theorem updateLoop_unsupported (l : List (String × GoValue)) :
    ∀ (exprs : List String) (vals : AttrMap), (∃ e ∈ l, spec.supported e.2 = false) →
      user.updateLoop l exprs vals = Except.error "unsupported attribute value type" := by
  induction l with
  | nil => intro _ _ h; simp at h
  | cons e rest ih =>
    intro exprs vals h
    obtain ⟨k, v⟩ := e
    have hrest : spec.supported v = true → ∃ e ∈ rest, spec.supported e.2 = false := by
      intro hv
      obtain ⟨e, he, hs⟩ := h
      rcases List.mem_cons.mp he with rfl | he
      · simp [hv] at hs
      · exact ⟨e, he, hs⟩
    cases v <;> simp only [user.updateLoop] <;>
      first | exact ih _ _ (hrest rfl)

theorem set_fresh (m : AttrMap) (k : String) (v : AttributeValue)
    (h : k ∉ m.map Prod.fst) : AttrMap.set m k v = m ++ [(k, v)] := by
  induction m with
  | nil => rfl
  | cons e rest ih =>
    obtain ⟨k1, v1⟩ := e
    simp only [List.map_cons, List.mem_cons, not_or] at h
    have hne : ¬ k1 = k := fun hk => h.1 hk.symm
    simp [AttrMap.set, hne, ih h.2]

theorem updateLoop_supported (l : List (String × GoValue)) :
    ∀ (exprs : List String) (vals : AttrMap), (∀ e ∈ l, spec.supported e.2 = true) →
      (l.map Prod.fst).Nodup →
      (∀ e ∈ l, spec.placeholder e.1 ∉ vals.map Prod.fst) →
      user.updateLoop l exprs vals =
        Except.ok (exprs ++ l.map (fun e => spec.clause e.1),
          vals ++ l.map (fun e => (spec.placeholder e.1, spec.attributeOf e.2))) := by
  induction l with
  | nil => intro exprs vals _ _ _; simp [user.updateLoop]
  | cons e rest ih =>
    intro exprs vals hsup hnd hfresh
    obtain ⟨k, v⟩ := e
    have hk : spec.placeholder k ∉ vals.map Prod.fst := hfresh (k, v) (List.mem_cons_self _ _)
    have hsup1 : ∀ e ∈ rest, spec.supported e.2 = true :=
      fun e he => hsup e (List.mem_cons_of_mem _ he)
    simp only [List.map_cons, List.nodup_cons] at hnd
    have hfresh1 : ∀ (a : AttributeValue), ∀ e ∈ rest,
        spec.placeholder e.1 ∉ (vals ++ [(spec.placeholder k, a)]).map Prod.fst := by
      intro a e he
      simp only [List.map_append, List.map_cons, List.map_nil, List.mem_append,
        List.mem_singleton, not_or]
      refine ⟨hfresh e (List.mem_cons_of_mem _ he), fun heq => hnd.1 ?_⟩
      have := placeholder_injective _ _ heq
      exact this ▸ List.mem_map_of_mem Prod.fst he
    have hv := hsup (k, v) (List.mem_cons_self _ _)
    cases v with
    | string s =>
      simp only [user.updateLoop, ← spec.placeholder.eq_1, ← spec.clause.eq_1]
      rw [set_fresh _ _ _ hk, ih _ _ hsup1 hnd.2 (hfresh1 _)]
      simp [spec.attributeOf]
    | int n =>
      simp only [user.updateLoop, ← spec.placeholder.eq_1, ← spec.clause.eq_1]
      rw [set_fresh _ _ _ hk, ih _ _ hsup1 hnd.2 (hfresh1 _)]
      simp [spec.attributeOf]
    | bool b =>
      simp only [user.updateLoop, ← spec.placeholder.eq_1, ← spec.clause.eq_1]
      rw [set_fresh _ _ _ hk, ih _ _ hsup1 hnd.2 (hfresh1 _)]
      simp [spec.attributeOf]
    | _ => simp [spec.supported] at hv

theorem lookup_placeholder (l : List (String × GoValue)) (hnd : (l.map Prod.fst).Nodup)
    (k : String) (v : GoValue) (h : (k, v) ∈ l) :
    (l.map (fun e => (spec.placeholder e.1, spec.attributeOf e.2))).lookup (spec.placeholder k)
      = some (spec.attributeOf v) := by
  induction l with
  | nil => simp at h
  | cons e rest ih =>
    obtain ⟨k1, v1⟩ := e
    simp only [List.map_cons, List.nodup_cons] at hnd
    rcases List.mem_cons.mp h with heq | hmem
    · cases heq
      simp [List.lookup]
    · have hne : ¬ spec.placeholder k = spec.placeholder k1 := by
        intro heq
        have := placeholder_injective _ _ heq
        exact hnd.1 (this ▸ List.mem_map_of_mem Prod.fst hmem)
      simp only [List.map_cons, List.lookup]
      have hb : (spec.placeholder k == spec.placeholder k1) = false := by simpa using hne
      rw [hb]
      exact ih hnd.2 hmem

/-! ## Decimal text -/

section Decimal

theorem digitChar_eq (d : Nat) (h : d < 10) : Nat.digitChar d = Char.ofNat (48 + d) := by
  interval_cases d <;> rfl

theorem toDigitsCore_eq_digits (fuel : Nat) :
    ∀ (n : Nat) (acc : List Char), 0 < n → n < fuel →
      Nat.toDigitsCore 10 fuel n acc
        = (Nat.digits 10 n).reverse.map (fun d => Char.ofNat (48 + d)) ++ acc := by
  induction fuel with
  | zero => intro n acc _ h; omega
  | succ fuel ih =>
    intro n acc hpos hlt
    have hd : Nat.digits 10 n = (n % 10) :: Nat.digits 10 (n / 10) :=
      Nat.digits_def' (by decide) hpos
    have hc := digitChar_eq (n % 10) (Nat.mod_lt _ (by decide))
    simp only [Nat.toDigitsCore]
    by_cases h0 : n / 10 = 0
    · simp [h0, hd, hc]
    · have hlt1 : n / 10 < fuel := by omega
      simp only [h0, if_false]
      rw [ih (n / 10) _ (Nat.pos_of_ne_zero h0) hlt1, hd, hc]
      simp

theorem repr_eq_decimalNat (n : Nat) : Nat.repr n = spec.decimalNat n := by
  unfold spec.decimalNat
  by_cases h : n = 0
  · subst h; rfl
  · rw [if_neg h]
    have := toDigitsCore_eq_digits (n + 1) n [] (Nat.pos_of_ne_zero h) (Nat.lt_succ_self n)
    simp only [Nat.repr, Nat.toDigits, this, List.append_nil, List.asString]

theorem Itoa_eq_decimal (v : Int) : Itoa v = spec.decimal v := by
  unfold Itoa spec.decimal
  cases v with
  | ofNat m =>
    have h : ¬ (Int.ofNat m < 0) := by simp
    rw [if_neg h]
    exact repr_eq_decimalNat m
  | negSucc m =>
    have h : Int.negSucc m < 0 := Int.negSucc_lt_zero m
    rw [if_pos h]
    show "-" ++ Nat.repr (m + 1) = _
    rw [repr_eq_decimalNat]
    rfl

end Decimal

/-! ## The update of a user -/

section UpdateUser

variable {σ : Type}

theorem UpdateUser_unsupported (order : RangeOrder GoValue)
    (email tableName : String) (updates : List (String × GoValue))
    (dynaClient : DynamoDB σ) (w : World σ)
    (h : ∃ e ∈ updates, spec.supported e.2 = false) :
    user.UpdateUser order email updates tableName dynaClient w
      = (some "unsupported attribute value type", w) := by
  have hv : ∃ e ∈ order.visit updates, spec.supported e.2 = false := by
    obtain ⟨e, he, hs⟩ := h
    exact ⟨e, (order.perm updates).mem_iff.mpr he, hs⟩
  simp [user.UpdateUser, updateLoop_unsupported _ [] [] hv]

/-- C1. A patch with at least one value that is not a string, an integer or
a boolean makes `user.UpdateUser` return the error "unsupported attribute
value type" and leave the world as it was: no request reaches the store,
whatever the other entries are and in whatever order the entries are
visited. -/
theorem C1_UpdateUser_unsupported_no_request (order : RangeOrder GoValue)
    (email tableName : String) (updates : List (String × GoValue))
    (dynaClient : DynamoDB σ) (w : World σ)
    (h : ∃ e ∈ updates, spec.supported e.2 = false) :
    user.UpdateUser order email updates tableName dynaClient w
      = (some "unsupported attribute value type", w) :=
  UpdateUser_unsupported order email tableName updates dynaClient w h

/-- C1 at a patch with a supported entry on each side of a nested object,
visited in reverse, on a store that would accept the update. -/
theorem C1_UpdateUser_unsupported_no_request_witness :
    spec.supported (GoValue.map []) = false ∧
    user.UpdateUser (RangeOrder.reversed GoValue) "a@b.c"
        [("firstName", GoValue.string "X"), ("tags", GoValue.map []), ("age", GoValue.int 3)]
        "users" sample.empty sample.world
      = (some "unsupported attribute value type", sample.world) :=
  ⟨rfl,
    C1_UpdateUser_unsupported_no_request _ _ _ _ _ _ ⟨("tags", GoValue.map []), by simp, rfl⟩⟩

/-- C10, as the code has it. For a patch with pairwise distinct keys whose
values all have the dynamic type `string`, `int` or `bool` (the empty patch
included), `user.UpdateUser` issues exactly one request, an `UpdateItem`
whose key is `email ↦ S(email)`, whose update expression is "set " followed
by the clauses `k = :k` of the patch keys joined by ", " in the order the
entries were visited, and whose expression attribute values hold exactly one
entry `:k` per patch key, with `S(v)` for a `string`, `N` of the decimal text
of `v` for an `int` and `BOOL(v)` for a `bool`. It returns `nil` when the
store accepts the request and the error "failed to update item" when the
store refuses it. -/
theorem C10_UpdateUser_one_request (order : RangeOrder GoValue)
    (email tableName : String) (updates : List (String × GoValue))
    (dynaClient : DynamoDB σ) (w : World σ)
    (hkeys : (updates.map Prod.fst).Nodup)
    (hsup : ∀ e ∈ updates, spec.supported e.2 = true) :
    ∃ (visited : List (String × GoValue)) (input : UpdateItemInput),
      visited.Perm updates ∧
      input.TableName = tableName ∧
      input.Key = [("email", AttributeValue.S email)] ∧
      input.UpdateExpression
        = "set " ++ ", ".intercalate (visited.map (fun e => e.1 ++ " = :" ++ e.1)) ∧
      input.ExpressionAttributeValues.map Prod.fst = visited.map (fun e => ":" ++ e.1) ∧
      (∀ k v, (k, GoValue.string v) ∈ updates →
        input.ExpressionAttributeValues.lookup (":" ++ k) = some (AttributeValue.S v)) ∧
      (∀ k v, (k, GoValue.int v) ∈ updates →
        input.ExpressionAttributeValues.lookup (":" ++ k)
          = some (AttributeValue.N (spec.decimal v))) ∧
      (∀ k v, (k, GoValue.bool v) ∈ updates →
        input.ExpressionAttributeValues.lookup (":" ++ k) = some (AttributeValue.BOOL v)) ∧
      (user.UpdateUser order email updates tableName dynaClient w).2.log
        = w.log ++ [Request.UpdateItem input] ∧
      (user.UpdateUser order email updates tableName dynaClient w).2.store
        = (dynaClient.updateItem input w.store).2 ∧
      ((dynaClient.updateItem input w.store).1 = Except.ok () →
        (user.UpdateUser order email updates tableName dynaClient w).1 = none) ∧
      (∀ m, (dynaClient.updateItem input w.store).1 = Except.error m →
        (user.UpdateUser order email updates tableName dynaClient w).1
          = some "failed to update item") := by
  have hperm := order.perm updates
  have hnd : ((order.visit updates).map Prod.fst).Nodup :=
    (hperm.map Prod.fst).nodup_iff.mpr hkeys
  have hsup1 : ∀ e ∈ order.visit updates, spec.supported e.2 = true :=
    fun e he => hsup e (hperm.mem_iff.mp he)
  have hloop := updateLoop_supported (order.visit updates) [] [] hsup1 hnd (by simp)
  simp only [List.nil_append] at hloop
  have hlook : ∀ k v, (k, v) ∈ updates →
      ((order.visit updates).map
          (fun e => (spec.placeholder e.1, spec.attributeOf e.2))).lookup (":" ++ k)
        = some (spec.attributeOf v) :=
    fun k v hm => lookup_placeholder _ hnd k v (hperm.mem_iff.mpr hm)
  refine ⟨order.visit updates,
    { TableName := tableName
      Key := [("email", AttributeValue.S email)]
      UpdateExpression :=
        "set " ++ ", ".intercalate ((order.visit updates).map (fun e => spec.clause e.1))
      ExpressionAttributeValues :=
        (order.visit updates).map (fun e => (spec.placeholder e.1, spec.attributeOf e.2)) },
    hperm, rfl, rfl, rfl, ?_, ?_, ?_, ?_, ?_⟩
  · simp [List.map_map, Function.comp_def, spec.placeholder]
  · intro k v hm; exact hlook k _ hm
  · intro k v hm
    rw [← Itoa_eq_decimal]
    exact hlook k _ hm
  · intro k v hm; exact hlook k _ hm
  · simp only [user.UpdateUser, hloop, DynamoDB.UpdateItem]
    generalize dynaClient.updateItem _ w.store = r
    obtain ⟨res, s1⟩ := r
    cases res <;> simp [user.ErrorFailedToUpdateItem]

/-- C10 at a patch with one value of each supported type, visited in
reverse, and at the empty patch: the requests that reach the store. -/
theorem C10_UpdateUser_one_request_witness :
    ([("firstName", GoValue.string "X"), ("age", GoValue.int (-30)),
        ("admin", GoValue.bool true)].map Prod.fst).Nodup ∧
    (user.UpdateUser (RangeOrder.reversed GoValue) "a@b.c"
        [("firstName", GoValue.string "X"), ("age", GoValue.int (-30)),
          ("admin", GoValue.bool true)] "users" sample.empty sample.world).1 = none ∧
    (user.UpdateUser (RangeOrder.reversed GoValue) "a@b.c"
        [("firstName", GoValue.string "X"), ("age", GoValue.int (-30)),
          ("admin", GoValue.bool true)] "users" sample.empty sample.world).2.log
      = [Request.UpdateItem
          { TableName := "users"
            Key := [("email", AttributeValue.S "a@b.c")]
            UpdateExpression := "set admin = :admin, age = :age, firstName = :firstName"
            ExpressionAttributeValues :=
              [ (":admin", AttributeValue.BOOL true)
              , (":age", AttributeValue.N "-30")
              , (":firstName", AttributeValue.S "X") ] }] ∧
    (user.UpdateUser (RangeOrder.listed GoValue) "a@b.c" [] "users" sample.failing
        sample.world)
      = (some "failed to update item",
          { store := ()
            log := [Request.UpdateItem
              { TableName := "users"
                Key := [("email", AttributeValue.S "a@b.c")]
                UpdateExpression := "set "
                ExpressionAttributeValues := [] }] }) :=
  ⟨by decide, by
    obtain ⟨_, input, _, _, _, _, _, _, _, _, _, _, hok, _⟩ :=
      C10_UpdateUser_one_request (RangeOrder.reversed GoValue) "a@b.c" "users"
        [("firstName", GoValue.string "X"), ("age", GoValue.int (-30)),
          ("admin", GoValue.bool true)] sample.empty sample.world (by decide)
        (by
          intro e he
          simp only [List.mem_cons, List.mem_singleton, List.not_mem_nil, or_false] at he
          rcases he with rfl | rfl | rfl <;> rfl)
    exact hok rfl, rfl, rfl⟩

/-- C10 as stated fails: an integer of type `int64` is an integer, yet
`user.UpdateUser` refuses the patch that holds it with "unsupported attribute
value type" and issues no request, on a store that would accept the
update. -/
theorem C10_UpdateUser_int64_refused :
    spec.stringIntegerOrBoolean (GoValue.int64 30) = true ∧
    user.UpdateUser (RangeOrder.listed GoValue) "a@b.c" [("age", GoValue.int64 30)]
        "users" sample.empty sample.world
      = (some "unsupported attribute value type", sample.world) :=
  ⟨rfl, rfl⟩

end UpdateUser

/-! ## The handlers -/

section Handlers

variable {σ : Type}

open events

theorem len_pos_iff (s : String) : len s > 0 ↔ s ≠ "" := by
  have h := len_eq_zero_iff s
  constructor
  · intro hp he
    have := h.mpr he
    omega
  · intro hn
    have : len s ≠ 0 := fun h0 => hn (h.mp h0)
    omega

theorem mapIndex_of_lookup (m : List (String × String)) (k v : String)
    (h : m.lookup k = some v) : mapIndex m k = v := by
  simp [mapIndex, h]

theorem mapIndex_of_missing (m : List (String × String)) (k : String)
    (h : m.lookup k = none ∨ m.lookup k = some "") : mapIndex m k = "" := by
  rcases h with h | h <;> simp [mapIndex, h]

/-- C5. When the query parameter `email` is absent or empty,
`handlers.DeleteUser` and `handlers.UpdateUser` both answer 400 with the body
`{"error":"missing email"}` and leave the world as it was, whatever the body
of the request and whatever the JSON decoder would say of it. -/
theorem C5_missing_email_400 (E : handlers.Env) (req : APIGatewayProxyRequest)
    (tableName : String) (dynaClient : DynamoDB σ) (w : World σ)
    (h : req.QueryStringParameters.lookup "email" = none ∨
      req.QueryStringParameters.lookup "email" = some "") :
    handlers.DeleteUser req tableName dynaClient w
      = ((some { StatusCode := 400
                 Headers := [("Content-Type", "application/json")]
                 Body := "\x7b\"error\":\"missing email\"\x7d" }, none), w) ∧
    handlers.UpdateUser E req tableName dynaClient w
      = ((some { StatusCode := 400
                 Headers := [("Content-Type", "application/json")]
                 Body := "\x7b\"error\":\"missing email\"\x7d" }, none), w) := by
  have h0 : len (mapIndex req.QueryStringParameters "email") = 0 :=
    (len_eq_zero_iff _).mpr (mapIndex_of_missing _ _ h)
  constructor
  · simp only [handlers.DeleteUser, h0, if_true]
    rfl
  · simp only [handlers.UpdateUser, h0, if_true]
    rfl

/-- C5 at a request without query parameters and with a body that is not
JSON. -/
theorem C5_missing_email_400_witness :
    (handlers.UpdateUser sample.env
        { HTTPMethod := "PATCH", QueryStringParameters := [], Body := "not json" }
        "users" sample.empty sample.world).1
      = (some { StatusCode := 400
                Headers := [("Content-Type", "application/json")]
                Body := "\x7b\"error\":\"missing email\"\x7d" }, none) :=
  congrArg Prod.fst
    (C5_missing_email_400 sample.env
      { HTTPMethod := "PATCH", QueryStringParameters := [], Body := "not json" }
      "users" sample.empty sample.world (Or.inl rfl)).2

theorem FetchUser_world (av : user.Codec) (email tableName : String)
    (dynaClient : DynamoDB σ) (w : World σ) :
    (user.FetchUser av email tableName dynaClient w).2
      = (dynaClient.GetItem
          { TableName := tableName, Key := [("email", AttributeValue.S email)] } w).2 := by
  simp only [user.FetchUser]
  generalize dynaClient.GetItem _ w = r
  obtain ⟨res, w1⟩ := r
  cases res with
  | error e => rfl
  | ok out =>
    obtain ⟨item⟩ := out
    cases item with
    | none => rfl
    | some item =>
      simp only
      cases av.UnmarshalMap item <;> rfl

theorem FetchUsers_world (av : user.Codec) (tableName : String)
    (dynaClient : DynamoDB σ) (w : World σ) :
    (user.FetchUsers av tableName dynaClient w).2
      = (dynaClient.Scan { TableName := tableName } w).2 := by
  simp only [user.FetchUsers]
  generalize dynaClient.Scan _ w = r
  obtain ⟨res, w1⟩ := r
  cases res with
  | error e => rfl
  | ok out =>
    simp only
    cases av.UnmarshalListOfMaps out.Items <;> rfl

theorem GetUser_world (E : handlers.Env) (req : APIGatewayProxyRequest) (tableName : String)
    (dynaClient : DynamoDB σ) (w : World σ) :
    (handlers.GetUser E req tableName dynaClient w).2
      = if len (mapIndex req.QueryStringParameters "email") > 0 then
          (user.FetchUser E.av (mapIndex req.QueryStringParameters "email") tableName
            dynaClient w).2
        else (user.FetchUsers E.av tableName dynaClient w).2 := by
  simp only [handlers.GetUser]
  split
  · generalize user.FetchUser _ _ _ _ w = r
    obtain ⟨⟨res, err⟩, w1⟩ := r
    cases err <;> rfl
  · generalize user.FetchUsers _ _ _ w = r
    obtain ⟨⟨res, err⟩, w1⟩ := r
    cases err <;> rfl

/-- C3, as the code has it. `handlers.GetUser` issues exactly one request:
a `GetItem` keyed by the e-mail when the query parameter `email` is present
with a non-empty value, and a `Scan` when the parameter is absent or present
with the empty string. -/
theorem C3_GetUser_dispatch (E : handlers.Env) (req : APIGatewayProxyRequest)
    (tableName : String) (dynaClient : DynamoDB σ) (w : World σ) :
    (∀ email, req.QueryStringParameters.lookup "email" = some email → email ≠ "" →
      (handlers.GetUser E req tableName dynaClient w).2.log
        = w.log ++ [Request.GetItem
            { TableName := tableName, Key := [("email", AttributeValue.S email)] }]) ∧
    ((req.QueryStringParameters.lookup "email" = none ∨
        req.QueryStringParameters.lookup "email" = some "") →
      (handlers.GetUser E req tableName dynaClient w).2.log
        = w.log ++ [Request.Scan { TableName := tableName }]) := by
  constructor
  · intro email hl hne
    have hm := mapIndex_of_lookup _ _ _ hl
    have hp : len (mapIndex req.QueryStringParameters "email") > 0 :=
      (len_pos_iff _).mpr (hm ▸ hne)
    rw [GetUser_world, if_pos hp, FetchUser_world, hm]
    rfl
  · intro h
    have h0 : ¬ len (mapIndex req.QueryStringParameters "email") > 0 := by
      have := (len_eq_zero_iff _).mpr (mapIndex_of_missing _ _ h)
      omega
    rw [GetUser_world, if_neg h0, FetchUsers_world]
    rfl

/-- C3 at a request for one address and at a request without parameters. -/
theorem C3_GetUser_dispatch_witness :
    (handlers.GetUser sample.env
        { HTTPMethod := "GET", QueryStringParameters := [("email", "a@b.c")], Body := "" }
        "users" sample.empty sample.world).2.log
      = sample.world.log ++ [Request.GetItem
          { TableName := "users", Key := [("email", AttributeValue.S "a@b.c")] }] ∧
    (handlers.GetUser sample.env
        { HTTPMethod := "GET", QueryStringParameters := [], Body := "" }
        "users" sample.empty sample.world).2.log
      = sample.world.log ++ [Request.Scan { TableName := "users" }] :=
  ⟨(C3_GetUser_dispatch sample.env
      { HTTPMethod := "GET", QueryStringParameters := [("email", "a@b.c")], Body := "" }
      "users" sample.empty sample.world).1 "a@b.c" rfl (by decide),
   (C3_GetUser_dispatch sample.env
      { HTTPMethod := "GET", QueryStringParameters := [], Body := "" }
      "users" sample.empty sample.world).2 (Or.inl rfl)⟩

/-- C3 as stated fails: with `email` present and empty, `handlers.GetUser`
scans the table and issues no `GetItem`. -/
theorem C3_GetUser_empty_email_scans :
    ([("email", "")] : List (String × String)).lookup "email" = some "" ∧
    (handlers.GetUser sample.env
        { HTTPMethod := "GET", QueryStringParameters := [("email", "")], Body := "" }
        "users" sample.empty sample.world).2.log
      = [Request.Scan { TableName := "users" }] ∧
    ∀ input, Request.GetItem input ∉
      (handlers.GetUser sample.env
        { HTTPMethod := "GET", QueryStringParameters := [("email", "")], Body := "" }
        "users" sample.empty sample.world).2.log := by
  have hlog : (handlers.GetUser sample.env
        { HTTPMethod := "GET", QueryStringParameters := [("email", "")], Body := "" }
        "users" sample.empty sample.world).2.log
      = [Request.Scan { TableName := "users" }] := rfl
  refine ⟨rfl, hlog, ?_⟩
  intro input hmem
  rw [hlog] at hmem
  simp at hmem

/-- C7. When the store answers the `GetItem` for a non-empty e-mail with
success and no item, `user.FetchUser` returns a `nil` record with a `nil`
error, and `handlers.GetUser` for a request carrying that e-mail answers 200
with the body `null`. -/
theorem C7_not_found_is_200_null (E : handlers.Env) (req : APIGatewayProxyRequest)
    (email tableName : String) (dynaClient : DynamoDB σ) (w : World σ)
    (hne : email ≠ "")
    (hreq : req.QueryStringParameters.lookup "email" = some email)
    (hget : (dynaClient.getItem
        { TableName := tableName, Key := [("email", AttributeValue.S email)] } w.store).1
      = Except.ok { Item := none }) :
    (user.FetchUser E.av email tableName dynaClient w).1 = (none, none) ∧
    (handlers.GetUser E req tableName dynaClient w).1
      = (some { StatusCode := 200
                Headers := [("Content-Type", "application/json")]
                Body := "null" }, none) := by
  have hm := mapIndex_of_lookup _ _ _ hreq
  have hp : len (mapIndex req.QueryStringParameters "email") > 0 :=
    (len_pos_iff _).mpr (hm ▸ hne)
  have hf : (user.FetchUser E.av email tableName dynaClient w).1 = (none, none) := by
    simp only [user.FetchUser, DynamoDB.GetItem, hget]
  refine ⟨hf, ?_⟩
  rw [hm] at hp
  simp only [handlers.GetUser, hm, if_pos hp]
  generalize user.FetchUser E.av email tableName dynaClient w = r at hf
  obtain ⟨⟨res, err⟩, w1⟩ := r
  simp only [Prod.mk.injEq] at hf
  obtain ⟨rfl, rfl⟩ := hf
  rfl

/-- C7 on a store that holds nothing. -/
theorem C7_not_found_is_200_null_witness :
    (handlers.GetUser sample.env
        { HTTPMethod := "GET", QueryStringParameters := [("email", "a@b.c")], Body := "" }
        "users" sample.empty sample.world).1
      = (some { StatusCode := 200
                Headers := [("Content-Type", "application/json")]
                Body := "null" }, none) :=
  (C7_not_found_is_200_null sample.env
    { HTTPMethod := "GET", QueryStringParameters := [("email", "a@b.c")], Body := "" }
    "a@b.c" "users" sample.empty sample.world (by decide) rfl rfl).2

/-- C6. When the body decodes to a record whose e-mail the validator
rejects, `handlers.CreateUser` answers 400 with the body
`{"error":"invalid email"}`; when the body does not decode to a record it
answers 400 with the body `{"error":"could not marshal item"}`, whatever the
validator is. In both cases the world is left as it was. -/
theorem C6_CreateUser_input_errors (E : handlers.Env) (req : APIGatewayProxyRequest)
    (tableName : String) (dynaClient : DynamoDB σ) (w : World σ) :
    (∀ u, E.jsonUnmarshalUser req.Body = some u → E.IsEmailValid u.Email = false →
      handlers.CreateUser E req tableName dynaClient w
        = ((some { StatusCode := 400
                   Headers := [("Content-Type", "application/json")]
                   Body := "\x7b\"error\":\"invalid email\"\x7d" }, none), w)) ∧
    (E.jsonUnmarshalUser req.Body = none → ∀ (valid : String → Bool),
      handlers.CreateUser { E with IsEmailValid := valid } req tableName dynaClient w
        = ((some { StatusCode := 400
                   Headers := [("Content-Type", "application/json")]
                   Body := "\x7b\"error\":\"could not marshal item\"\x7d" }, none), w)) := by
  constructor
  · intro u hu hv
    simp only [handlers.CreateUser, hu, hv]
    rfl
  · intro hu valid
    simp only [handlers.CreateUser, hu]
    rfl

/-- C6 at the record with the e-mail `not-an-email` and at a body that is
not JSON. -/
theorem C6_CreateUser_input_errors_witness :
    handlers.CreateUser sample.env
        { HTTPMethod := "POST", QueryStringParameters := []
          Body := "\x7b\"email\":\"not-an-email\",\"firstName\":\"A\",\"lastName\":\"B\"\x7d" }
        "users" sample.empty sample.world
      = ((some { StatusCode := 400
                 Headers := [("Content-Type", "application/json")]
                 Body := "\x7b\"error\":\"invalid email\"\x7d" }, none), sample.world) ∧
    handlers.CreateUser { sample.env with IsEmailValid := fun _ => true }
        { HTTPMethod := "POST", QueryStringParameters := [], Body := "not json" }
        "users" sample.empty sample.world
      = ((some { StatusCode := 400
                 Headers := [("Content-Type", "application/json")]
                 Body := "\x7b\"error\":\"could not marshal item\"\x7d" }, none),
          sample.world) :=
  ⟨(C6_CreateUser_input_errors sample.env
      { HTTPMethod := "POST", QueryStringParameters := []
        Body := "\x7b\"email\":\"not-an-email\",\"firstName\":\"A\",\"lastName\":\"B\"\x7d" }
      "users" sample.empty sample.world).1
      { Email := "not-an-email", FirstName := "A", LastName := "B" } (by decide) (by decide),
   (C6_CreateUser_input_errors sample.env
      { HTTPMethod := "POST", QueryStringParameters := [], Body := "not json" }
      "users" sample.empty sample.world).2 (by decide) (fun _ => true)⟩

/-- C2 fails on the code. A decoded patch that holds a `float64`, which is
what `encoding/json` stores for every JSON number, integers included, makes
`handlers.UpdateUser` answer 502 with the body
`{"error":"unsupported attribute value type"}` and issue no store update. -/
theorem C2_UpdateUser_number_patch_502 (E : handlers.Env) (req : APIGatewayProxyRequest)
    (tableName : String) (dynaClient : DynamoDB σ) (w : World σ)
    (email : String) (updates : List (String × GoValue))
    (hreq : req.QueryStringParameters.lookup "email" = some email) (hne : email ≠ "")
    (hbody : E.jsonUnmarshalMap req.Body = some updates)
    (hnum : ∃ e ∈ updates, ∃ x, e.2 = GoValue.float64 x) :
    handlers.UpdateUser E req tableName dynaClient w
      = ((some { StatusCode := 502
                 Headers := [("Content-Type", "application/json")]
                 Body := "\x7b\"error\":\"unsupported attribute value type\"\x7d" }, none),
          w) := by
  have hm := mapIndex_of_lookup _ _ _ hreq
  have h0 : ¬ len email = 0 := fun h => hne ((len_eq_zero_iff _).mp h)
  have hu : user.UpdateUser E.order email updates tableName dynaClient w
      = (some "unsupported attribute value type", w) := by
    apply UpdateUser_unsupported
    obtain ⟨e, he, x, hx⟩ := hnum
    exact ⟨e, he, by rw [hx]; rfl⟩
  simp only [handlers.UpdateUser, hm, if_neg h0, hbody, hu]
  rfl

/-- C2 at the request `PATCH ?email=a@b.c` with the body `{"age":30}`, on a
store that accepts every write: the answer is 502 and the log stays empty. -/
theorem C2_UpdateUser_number_patch_502_witness :
    handlers.UpdateUser sample.env
        { HTTPMethod := "PATCH", QueryStringParameters := [("email", "a@b.c")]
          Body := "\x7b\"age\":30\x7d" }
        "users" sample.empty sample.world
      = ((some { StatusCode := 502
                 Headers := [("Content-Type", "application/json")]
                 Body := "\x7b\"error\":\"unsupported attribute value type\"\x7d" }, none),
          sample.world) :=
  C2_UpdateUser_number_patch_502 sample.env
    { HTTPMethod := "PATCH", QueryStringParameters := [("email", "a@b.c")]
      Body := "\x7b\"age\":30\x7d" }
    "users" sample.empty sample.world "a@b.c" [("age", GoValue.float64 30)]
    rfl (by decide) rfl ⟨("age", GoValue.float64 30), by simp, 30, rfl⟩

theorem FetchUser_error (av : user.Codec) (email tableName : String)
    (dynaClient : DynamoDB σ) (w : World σ) (m : String)
    (h : (user.FetchUser av email tableName dynaClient w).1.2 = some m) :
    m = "failed to fetch record" ∨ m = "failed to unmarshal record" := by
  simp only [user.FetchUser] at h
  generalize dynaClient.GetItem _ w = r at h
  obtain ⟨res, w1⟩ := r
  cases res with
  | error e => left; simpa [user.ErrorFailedToFetchRecord] using h.symm
  | ok out =>
    obtain ⟨item⟩ := out
    cases item with
    | none => simp at h
    | some item =>
      simp only at h
      cases hd : av.UnmarshalMap item with
      | error e => rw [hd] at h; right; simpa [user.ErrorFailedToUnmarshalRecord] using h.symm
      | ok u => rw [hd] at h; simp at h

theorem FetchUsers_error (av : user.Codec) (tableName : String)
    (dynaClient : DynamoDB σ) (w : World σ) (m : String)
    (h : (user.FetchUsers av tableName dynaClient w).1.2 = some m) :
    m = "failed to fetch records" ∨ m = "failed to unmarshal records" := by
  simp only [user.FetchUsers] at h
  generalize dynaClient.Scan _ w = r at h
  obtain ⟨res, w1⟩ := r
  cases res with
  | error e => left; simpa [user.ErrorFailedToFetchRecords] using h.symm
  | ok out =>
    simp only at h
    cases hd : av.UnmarshalListOfMaps out.Items with
    | error e => rw [hd] at h; right; simpa [user.ErrorFailedToUnmarshalRecords] using h.symm
    | ok u => rw [hd] at h; simp at h

theorem CreateUser_error (av : user.Codec) (u : user.User) (tableName : String)
    (dynaClient : DynamoDB σ) (w : World σ) (m : String)
    (h : (user.CreateUser av u tableName dynaClient w).1.2 = some m) :
    m = "could not marshal item" ∨ m = "could not put item" := by
  simp only [user.CreateUser] at h
  cases hd : av.MarshalMap u with
  | error e => rw [hd] at h; left; simpa [user.ErrorCouldNotMarshalItem] using h.symm
  | ok item =>
    rw [hd] at h
    simp only at h
    generalize dynaClient.PutItem _ w = r at h
    obtain ⟨res, w1⟩ := r
    cases res with
    | error e => right; simpa [user.ErrorCouldNotPutItem] using h.symm
    | ok out => simp at h

theorem UpdateUser_error (order : RangeOrder GoValue) (email tableName : String)
    (updates : List (String × GoValue)) (dynaClient : DynamoDB σ) (w : World σ) (m : String)
    (h : (user.UpdateUser order email updates tableName dynaClient w).1 = some m) :
    m = "failed to update item" ∨ m = "unsupported attribute value type" := by
  by_cases hs : ∃ e ∈ updates, spec.supported e.2 = false
  · rw [UpdateUser_unsupported order email tableName updates dynaClient w hs] at h
    right; simpa using h.symm
  · have hv : ∀ e ∈ order.visit updates, spec.supported e.2 = true := by
      intro e he
      by_contra hc
      exact hs ⟨e, (order.perm updates).mem_iff.mp he, by simpa using hc⟩
    simp only [user.UpdateUser] at h
    cases hl : user.updateLoop (order.visit updates) [] [] with
    | error e =>
      rw [hl] at h
      have hall : ∀ (l : List (String × GoValue)) (exprs : List String) (vals : AttrMap) e,
          user.updateLoop l exprs vals = Except.error e →
          e = "unsupported attribute value type" := by
        intro l
        induction l with
        | nil => intro exprs vals e he; simp [user.updateLoop] at he
        | cons a rest ih =>
          intro exprs vals e he
          obtain ⟨k, v⟩ := a
          cases v <;> simp only [user.updateLoop] at he <;>
            first
              | exact ih _ _ _ he
              | exact (Except.error.inj he).symm
      right
      have := hall _ _ _ _ hl
      simp only [Option.some.injEq] at h
      rw [← h, this]
    | ok p =>
      rw [hl] at h
      obtain ⟨exprs, vals⟩ := p
      simp only at h
      generalize dynaClient.UpdateItem _ w = r at h
      obtain ⟨res, w1⟩ := r
      cases res with
      | error e => left; simpa [user.ErrorFailedToUpdateItem] using h.symm
      | ok out => simp at h

theorem apiResponse_error (status : Int) (m : String)
    (h : m ∈ ["failed to fetch record", "failed to unmarshal record", "failed to fetch records",
      "failed to unmarshal records", "could not marshal item", "could not put item",
      "failed to update item", "unsupported attribute value type", "failed to delete user"]) :
    handlers.apiResponse status (handlers.Body.errorBody { ErrorMsg := some m })
      = (some (spec.errorResponse status m), none) := by
  simp only [List.mem_cons, List.mem_singleton, List.not_mem_nil, or_false] at h
  rcases h with rfl | rfl | rfl | rfl | rfl | rfl | rfl | rfl | rfl <;> rfl

/-- C4. Past input validation, a failure of the adapter operation a handler
invokes is answered 502 with the body `{"error": m}`. For `GetUser`,
`CreateUser` and `UpdateUser`, `m` is the message of the adapter's error,
which is one of "failed to fetch record", "failed to unmarshal record",
"failed to fetch records", "failed to unmarshal records", "could not marshal
item", "could not put item", "failed to update item" and "unsupported
attribute value type"; for `DeleteUser`, `m` is "failed to delete user". -/
theorem C4_adapter_failure_502 (E : handlers.Env) (req : APIGatewayProxyRequest)
    (tableName : String) (dynaClient : DynamoDB σ) (w : World σ) :
    (∀ m, mapIndex req.QueryStringParameters "email" ≠ "" →
      (user.FetchUser E.av (mapIndex req.QueryStringParameters "email") tableName
        dynaClient w).1.2 = some m →
      (m = "failed to fetch record" ∨ m = "failed to unmarshal record") ∧
      (handlers.GetUser E req tableName dynaClient w).1
        = (some (spec.errorResponse 502 m), none)) ∧
    (∀ m, mapIndex req.QueryStringParameters "email" = "" →
      (user.FetchUsers E.av tableName dynaClient w).1.2 = some m →
      (m = "failed to fetch records" ∨ m = "failed to unmarshal records") ∧
      (handlers.GetUser E req tableName dynaClient w).1
        = (some (spec.errorResponse 502 m), none)) ∧
    (∀ u m, E.jsonUnmarshalUser req.Body = some u → E.IsEmailValid u.Email = true →
      (user.CreateUser E.av u tableName dynaClient w).1.2 = some m →
      (m = "could not marshal item" ∨ m = "could not put item") ∧
      (handlers.CreateUser E req tableName dynaClient w).1
        = (some (spec.errorResponse 502 m), none)) ∧
    (∀ updates m, mapIndex req.QueryStringParameters "email" ≠ "" →
      E.jsonUnmarshalMap req.Body = some updates →
      (user.UpdateUser E.order (mapIndex req.QueryStringParameters "email") updates tableName
        dynaClient w).1 = some m →
      (m = "failed to update item" ∨ m = "unsupported attribute value type") ∧
      (handlers.UpdateUser E req tableName dynaClient w).1
        = (some (spec.errorResponse 502 m), none)) ∧
    (∀ m, mapIndex req.QueryStringParameters "email" ≠ "" →
      (user.DeleteUser (mapIndex req.QueryStringParameters "email") tableName
        dynaClient w).1 = some m →
      (handlers.DeleteUser req tableName dynaClient w).1
        = (some (spec.errorResponse 502 "failed to delete user"), none)) := by
  refine ⟨?_, ?_, ?_, ?_, ?_⟩
  · intro m hne h
    have hm := FetchUser_error _ _ _ _ _ _ h
    refine ⟨hm, ?_⟩
    have hp := (len_pos_iff _).mpr hne
    simp only [handlers.GetUser, if_pos hp]
    generalize user.FetchUser _ _ _ _ w = r at h
    obtain ⟨⟨res, err⟩, w1⟩ := r
    simp only at h
    subst h
    simp only [http.StatusBadGateway]
    exact apiResponse_error 502 m (by rcases hm with rfl | rfl <;> simp)
  · intro m he h
    have hm := FetchUsers_error _ _ _ _ _ h
    refine ⟨hm, ?_⟩
    have hp : ¬ len (mapIndex req.QueryStringParameters "email") > 0 := by
      have := (len_eq_zero_iff _).mpr he
      omega
    simp only [handlers.GetUser, if_neg hp]
    generalize user.FetchUsers _ _ _ w = r at h
    obtain ⟨⟨res, err⟩, w1⟩ := r
    simp only at h
    subst h
    simp only [http.StatusBadGateway]
    exact apiResponse_error 502 m (by rcases hm with rfl | rfl <;> simp)
  · intro u m hu hv h
    have hm := CreateUser_error _ _ _ _ _ _ h
    refine ⟨hm, ?_⟩
    simp only [handlers.CreateUser, hu, hv]
    generalize user.CreateUser _ _ _ _ w = r at h
    obtain ⟨⟨res, err⟩, w1⟩ := r
    simp only at h
    subst h
    simp only [http.StatusBadGateway, Bool.not_true, Bool.false_eq_true, if_false]
    exact apiResponse_error 502 m (by rcases hm with rfl | rfl <;> simp)
  · intro updates m hne hb h
    have hm := UpdateUser_error _ _ _ _ _ _ _ h
    refine ⟨hm, ?_⟩
    have h0 : ¬ len (mapIndex req.QueryStringParameters "email") = 0 :=
      fun h => hne ((len_eq_zero_iff _).mp h)
    simp only [handlers.UpdateUser, if_neg h0, hb]
    generalize user.UpdateUser _ _ _ _ _ w = r at h
    obtain ⟨err, w1⟩ := r
    simp only at h
    subst h
    simp only [http.StatusBadGateway]
    exact apiResponse_error 502 m (by rcases hm with rfl | rfl <;> simp)
  · intro m hne h
    have h0 : ¬ len (mapIndex req.QueryStringParameters "email") = 0 :=
      fun h => hne ((len_eq_zero_iff _).mp h)
    simp only [handlers.DeleteUser, if_neg h0]
    generalize user.DeleteUser _ _ _ w = r at h
    obtain ⟨err, w1⟩ := r
    simp only at h
    subst h
    rfl

/-- C4 at a `DELETE` for one address on a store that refuses every
operation. -/
theorem C4_adapter_failure_502_witness :
    (handlers.DeleteUser
        { HTTPMethod := "DELETE", QueryStringParameters := [("email", "a@b.c")], Body := "" }
        "users" sample.failing sample.world).1
      = (some (spec.errorResponse 502 "failed to delete user"), none) :=
  (C4_adapter_failure_502 sample.env
    { HTTPMethod := "DELETE", QueryStringParameters := [("email", "a@b.c")], Body := "" }
    "users" sample.failing sample.world).2.2.2.2 "failed to delete item" (by decide) rfl

theorem wellFormed_apiResponse (status : Int) (body : handlers.Body)
    (h : status ∈ [(200 : Int), 201, 400, 405, 502]) :
    spec.wellFormed (handlers.apiResponse status body) = true := by
  simp only [spec.wellFormed, handlers.apiResponse, spec.jsonHeaders, decide_True, Bool.true_and,
    decide_eq_true_eq]
  exact h

/-- C9. Whatever the request and whatever the store does, each of
`GetUser`, `CreateUser`, `UpdateUser`, `DeleteUser` and `UnhandledMethod`
returns a `nil` error with a response whose only header is
`Content-Type: application/json` and whose status is one of 200, 201, 400,
405 and 502; `UnhandledMethod` answers 405 with the body
`"method not allowed"`, a JSON string. -/
theorem C9_every_path_well_formed (E : handlers.Env) (req : APIGatewayProxyRequest)
    (tableName : String) (dynaClient : DynamoDB σ) (w : World σ) :
    spec.wellFormed (handlers.GetUser E req tableName dynaClient w).1 = true ∧
    spec.wellFormed (handlers.CreateUser E req tableName dynaClient w).1 = true ∧
    spec.wellFormed (handlers.UpdateUser E req tableName dynaClient w).1 = true ∧
    spec.wellFormed (handlers.DeleteUser req tableName dynaClient w).1 = true ∧
    spec.wellFormed handlers.UnhandledMethod = true ∧
    handlers.UnhandledMethod
      = (some { StatusCode := 405
                Headers := [("Content-Type", "application/json")]
                Body := "\"method not allowed\"" }, none) := by
  refine ⟨?_, ?_, ?_, ?_, ?_, rfl⟩
  · simp only [handlers.GetUser]
    split <;> split <;> exact wellFormed_apiResponse _ _ (by decide)
  · simp only [handlers.CreateUser]
    split
    · exact wellFormed_apiResponse _ _ (by decide)
    · split
      · exact wellFormed_apiResponse _ _ (by decide)
      · split <;> exact wellFormed_apiResponse _ _ (by decide)
  · simp only [handlers.UpdateUser]
    split
    · exact wellFormed_apiResponse _ _ (by decide)
    · split
      · exact wellFormed_apiResponse _ _ (by decide)
      · split <;> exact wellFormed_apiResponse _ _ (by decide)
  · simp only [handlers.DeleteUser]
    split
    · exact wellFormed_apiResponse _ _ (by decide)
    · split <;> exact wellFormed_apiResponse _ _ (by decide)
  · exact wellFormed_apiResponse _ _ (by decide)

end Handlers

/-! ## Create, then fetch -/

section CreateFetch

open dynamodbattribute user

theorem decodeString_encodeString (opts : Options) (cur s : String) :
    decodeString cur (encodeString opts s) = Except.ok s := by
  unfold encodeString
  split
  · rename_i h
    simp [decodeString, h.1]
  · simp [decodeString]

theorem fieldByName_email (opts : Options) : fieldByName opts "email" = some Field.Email := by
  simp [fieldByName, fieldByNameLoop, Field.Name]

theorem fieldByName_firstName (opts : Options) :
    fieldByName opts "firstName" = some Field.FirstName := by
  simp only [fieldByName, fieldByNameLoop, Field.Name]
  split <;> simp_all

theorem fieldByName_lastName (opts : Options) :
    fieldByName opts "lastName" = some Field.LastName := by
  simp only [fieldByName, fieldByNameLoop, Field.Name]
  repeat' split
  all_goals simp_all

theorem decodeEntry_email (opts : Options) (u : User) (s : String) :
    decodeEntry opts (Except.ok u) ("email", encodeString opts s)
      = Except.ok { u with Email := s } := by
  simp [decodeEntry, fieldByName_email, decodeString_encodeString, Field.set]

theorem decodeEntry_firstName (opts : Options) (u : User) (s : String) :
    decodeEntry opts (Except.ok u) ("firstName", encodeString opts s)
      = Except.ok { u with FirstName := s } := by
  simp [decodeEntry, fieldByName_firstName, decodeString_encodeString, Field.set]

theorem decodeEntry_lastName (opts : Options) (u : User) (s : String) :
    decodeEntry opts (Except.ok u) ("lastName", encodeString opts s)
      = Except.ok { u with LastName := s } := by
  simp [decodeEntry, fieldByName_lastName, decodeString_encodeString, Field.set]

theorem decodeEntry_error (opts : Options) (m : String) (e : String × AttributeValue) :
    decodeEntry opts (Except.error m) e = Except.error m := rfl

theorem UnmarshalMap_marshalled (opts : Options) (u : User) :
    UnmarshalMap opts
        [ ("email", encodeString opts u.Email)
        , ("firstName", encodeString opts u.FirstName)
        , ("lastName", encodeString opts u.LastName) ]
      = Except.ok u := by
  unfold UnmarshalMap
  rw [← List.Perm.foldl_eq' (opts.order.perm _).symm]
  · simp [List.foldl, decodeEntry_email, decodeEntry_firstName, decodeEntry_lastName]
  · intro x hx y hy z
    simp only [List.mem_cons, List.mem_singleton, List.not_mem_nil, or_false] at hx hy
    cases z with
    | error m => simp [decodeEntry_error]
    | ok v =>
      rcases hx with rfl | rfl | rfl <;> rcases hy with rfl | rfl | rfl <;>
        simp [decodeEntry_email, decodeEntry_firstName, decodeEntry_lastName]

/-- C8. On a store whose `PutItem` overwrites the item under its partition
key `email` and whose `GetItem` looks the key up, whatever the store held
before: if `user.CreateUser` of a record succeeds, then `user.FetchUser` of
the record's e-mail on the resulting world succeeds and returns that record,
equal in `Email`, `FirstName` and `LastName`. -/
theorem C8_create_then_fetch (opts : Options) (other : Backend table.Table) (u : User)
    (tableName : String) (w : World table.Table)
    (h : (user.CreateUser (codec opts) u tableName (table.mapStore other) w).1.2 = none) :
    (user.FetchUser (codec opts) u.Email tableName (table.mapStore other)
        (user.CreateUser (codec opts) u tableName (table.mapStore other) w).2).1
      = (some u, none) := by
  have hdec := UnmarshalMap_marshalled opts u
  simp only [user.CreateUser, codec, MarshalMap, DynamoDB.PutItem, table.mapStore,
    table.partitionKey, List.lookup_cons_self] at h ⊢
  cases he : encodeString opts u.Email with
  | S k =>
    have hk : k = u.Email := by
      unfold encodeString at he
      split at he
      · simp at he
      · simpa using he.symm
    subst hk
    simp only [he] at hdec
    simp [user.FetchUser, DynamoDB.GetItem, table.partitionKey, hdec]
  | _ => simp [he] at h

/-- C8 on a table that already holds a record under the same e-mail. -/
theorem C8_create_then_fetch_witness :
    (user.FetchUser (codec sample.options) "a@b.c" "users" (table.mapStore sample.others)
        (user.CreateUser (codec sample.options)
          { Email := "a@b.c", FirstName := "", LastName := "B" } "users"
          (table.mapStore sample.others)
          { store := [("a@b.c", [("email", AttributeValue.S "a@b.c")])], log := [] }).2).1
      = (some { Email := "a@b.c", FirstName := "", LastName := "B" }, none) :=
  C8_create_then_fetch sample.options sample.others
    { Email := "a@b.c", FirstName := "", LastName := "B" } "users"
    { store := [("a@b.c", [("email", AttributeValue.S "a@b.c")])], log := [] } rfl

end CreateFetch
